import Mathlib

/-!
Verification of the `port-scanner` script (`src/script.py`).

The development shallowly embeds the script's functions:
* `parse_ports` — the port-specification parser (`script.py`, lines 25-45);
* `scan_port` — one bounded TCP connect attempt (`script.py`, lines 56-67),
  with the transport connect primitive (`socket.connect_ex`) supplied as an
  oracle returning either an error code or a raised `OSError`;
* `main` — the CLI driver (`script.py`, lines 97-169), with hostname
  resolution, the transport, and the arrival of a `KeyboardInterrupt`
  supplied as an environment.

Python's `int()` is embedded as `pyInt` (optional surrounding whitespace,
optional sign, a nonempty digit sequence with single underscores allowed
between digits); Python's `str.strip` as `pyStrip`; `str.split(",")` as
`splitChar ','`; `part.split("-", 1)` as `splitFirst '-'`.  The Python `set`
accumulator is a duplicate-free list (`setAdd`), and `sorted(...)` /
`list.sort()` are `List.insertionSort (· ≤ ·)`, which for natural numbers
produces the same list as Python's sort: the unique ascending arrangement.
-/

namespace PortScanner

/-- Python `str.strip()`: drop leading and trailing whitespace. -/
def pyStrip (s : List Char) : List Char :=
  ((s.dropWhile Char.isWhitespace).reverse.dropWhile Char.isWhitespace).reverse

/-- Numeric value of a decimal digit character. -/
def digitVal (c : Char) : ℕ := c.toNat - 48

/-- Continuation of Python `int()` digit parsing: after at least one digit has
been read into `acc`, consume further digits, allowing a single underscore
between two digits (as Python's integer literal grammar does). -/
def pyDigits : ℕ → List Char → Option ℕ
  | acc, [] => some acc
  | acc, c :: rest =>
    if c.isDigit then pyDigits (acc * 10 + digitVal c) rest
    else if c = '_' then
      match rest with
      | [] => none
      | c2 :: rest2 =>
        if c2.isDigit then pyDigits (acc * 10 + digitVal c2) rest2 else none
    else none

/-- A nonempty digit sequence (Python `digitpart`): the first character must be
a digit. -/
def pyDigitPart : List Char → Option ℕ
  | [] => none
  | c :: rest => if c.isDigit then pyDigits (digitVal c) rest else none

/-- Python `int(s)` for base 10: strip whitespace, optional sign, then a
nonempty digit sequence.  `none` models a raised `ValueError`. -/
def pyInt (s : List Char) : Option ℤ :=
  match pyStrip s with
  | '-' :: rest => (pyDigitPart rest).map (fun n => -(n : ℤ))
  | '+' :: rest => (pyDigitPart rest).map (fun n => (n : ℤ))
  | l => (pyDigitPart l).map (fun n => (n : ℤ))

/-- Python `s.split(sep)` for a one-character separator (never returns `[]`;
the empty string splits to `[[]]`, like `"".split(",") == ['']`). -/
def splitChar (sep : Char) : List Char → List (List Char)
  | [] => [[]]
  | c :: rest =>
    if c = sep then [] :: splitChar sep rest
    else
      match splitChar sep rest with
      | [] => [[c]]
      | t :: ts => (c :: t) :: ts

/-- Python `s.split(sep, 1)` destructured into the part before the first
occurrence of `sep` and the part after it. -/
def splitFirst (sep : Char) : List Char → List Char × List Char
  | [] => ([], [])
  | c :: rest =>
    if c = sep then ([], rest)
    else ((splitFirst sep rest).1.cons c, (splitFirst sep rest).2)

/-- Python `set.add`: the accumulator is a duplicate-free list. -/
def setAdd (acc : List ℕ) (p : ℕ) : List ℕ :=
  if p ∈ acc then acc else p :: acc

/-- Python `range(lo, hi + 1)` over integers, as a list of naturals (only used
with `1 ≤ lo`, as in `range(max(1, begin), min(65535, end) + 1)`). -/
def rangeList (lo hi : ℤ) : List ℕ :=
  List.range' lo.toNat (hi + 1 - lo).toNat

/-- The body of `parse_ports`'s loop (`script.py`, lines 30-44) for one
comma-separated token: strip it, skip it when empty; a token containing `-`
is a range whose two endpoints are parsed by `int` (swapped when inverted,
clamped to `[1, 65535]`); otherwise a literal, parsed by `int` and added only
when within `[1, 65535]`.  An `error` models the `ValueError` escaping the
loop, carrying the string `int()` choked on. -/
def addToken (ports : List ℕ) (tok : List Char) : Except String (List ℕ) :=
  let part := pyStrip tok
  if part = [] then .ok ports
  else if '-' ∈ part then
    match pyInt (splitFirst '-' part).1 with
    | none => .error ⟨(splitFirst '-' part).1⟩
    | some b =>
      match pyInt (splitFirst '-' part).2 with
      | none => .error ⟨(splitFirst '-' part).2⟩
      | some e =>
        let lo := if b > e then e else b
        let hi := if b > e then b else e
        .ok ((rangeList (max 1 lo) (min 65535 hi)).foldl setAdd ports)
  else
    match pyInt part with
    | none => .error ⟨part⟩
    | some p =>
      if 1 ≤ p ∧ p ≤ 65535 then .ok (setAdd ports p.toNat) else .ok ports

/-- `parse_ports` (`script.py`, lines 25-45): split the argument on commas,
fold `addToken` over the tokens starting from the empty set, and return the
ascending sort of the resulting set. -/
def parse_ports (ports_arg : String) : Except String (List ℕ) := do
  let ports ← (splitChar ',' ports_arg.toList).foldlM addToken []
  pure (List.insertionSort (· ≤ ·) ports)

/-- The network-layer failures `socket` can report (every one an `OSError` in
Python, including `socket.timeout`). -/
inductive NetError
  | timedOut
  | refused
  | unreachable
  | resourceExhausted
  | other
deriving DecidableEq

/-- The transport connect primitive: what one call of
`socket.connect_ex((ip, port))` under `settimeout(timeout)` does — either
return an error code (`0` on success) or raise an `OSError`. -/
def ConnectEx : Type := String → ℕ → ℚ → Except NetError ℤ

/-- `scan_port` (`script.py`, lines 56-67): one connection attempt; `True`
exactly when `connect_ex` returns `0`; a raised `OSError` is caught and
becomes `False`. -/
def scan_port (connect_ex : ConnectEx) (ip : String) (port : ℕ)
    (timeout : ℚ) : Bool :=
  match connect_ex ip port timeout with
  | .ok code => code == 0
  | .error _ => false

/-- The parsed command-line arguments of `main` (`argparse`: `target`,
`--ports`, `--workers` as `int`, `--timeout` as a nonnegative-irrelevant
rational standing in for `float`). -/
structure Args where
  target : String
  ports : String
  workers : ℤ
  timeout : ℚ

/-- The ambient world `main` runs against: `socket.gethostbyname` (`none`
models a raised `socket.gaierror`), the transport primitive, and whether (and
after how many processed probe results) a `KeyboardInterrupt` arrives during
the scan loop.  `interruptAfter = some k` with `k` at least the number of
ports means the loop finishes before the interrupt can land. -/
structure Env where
  resolve : String → Option String
  connect_ex : ConnectEx
  interruptAfter : Option ℕ

/-- How an invocation of `main` ends: `exited code` for a `return code`, or
`uncaught` for an exception escaping `main` (no `return` executed). -/
inductive MainOutcome
  | exited (code : ℕ)
  | uncaught
deriving DecidableEq

/-- The observable result of `main`: its outcome, whether the executor began
dispatching probes, and the open-port list printed in the summary block
(`none` when no summary is printed). -/
structure MainResult where
  outcome : MainOutcome
  scanStarted : Bool
  summary : Option (List ℕ)
deriving DecidableEq

/-- `open_ports.sort()` (`script.py`, line 167): the finalization the
aggregated open-port list undergoes before the summary is printed. -/
def finalize (open_ports : List ℕ) : List ℕ :=
  List.insertionSort (· ≤ ·) open_ports

/-- The completed-scan tail of `main` (`script.py`, lines 147-169): one
`scan_port` per element of `ports`, the ports that answered collected in
order, sorted, and printed in the summary, exit code `0`. -/
def runScan (env : Env) (args : Args) (ip : String) (ports : List ℕ) :
    MainResult :=
  ⟨.exited 0, true,
    some (finalize (ports.filter (fun p => scan_port env.connect_ex ip p args.timeout)))⟩

/-- `main` (`script.py`, lines 97-169): parse the port spec (`ValueError` →
exit 2), reject an empty port set (exit 2), resolve the target
(`socket.gaierror` → exit 3), enter the executor — `ThreadPoolExecutor`
raises an unhandled `ValueError` when `max_workers ≤ 0`, before any probe is
dispatched — then drive the scan loop; a `KeyboardInterrupt` landing before
the loop ends is caught: exit 130, the accumulated state discarded, no
summary; otherwise the summary is printed and the exit code is 0. -/
def main (env : Env) (args : Args) : MainResult :=
  match parse_ports args.ports with
  | .error _ => ⟨.exited 2, false, none⟩
  | .ok ports =>
    if ports = [] then ⟨.exited 2, false, none⟩
    else
      match env.resolve args.target with
      | none => ⟨.exited 3, false, none⟩
      | some ip =>
        if args.workers ≤ 0 then ⟨.uncaught, false, none⟩
        else
          match env.interruptAfter with
          | some k =>
            if k < ports.length then ⟨.exited 130, true, none⟩
            else runScan env args ip ports
          | none => runScan env args ip ports

/-! ### Helper lemmas -/

theorem exc_bind_ok {α β σ : Type} (a : α) (f : α → Except σ β) :
    (Except.ok a >>= f) = f a := rfl

theorem exc_bind_error {α β σ : Type} (t : σ) (f : α → Except σ β) :
    ((Except.error t : Except σ α) >>= f) = .error t := rfl

theorem mem_setAdd {acc : List ℕ} {p q : ℕ} :
    p ∈ setAdd acc q ↔ p = q ∨ p ∈ acc := by
  unfold setAdd
  split
  · rename_i hq
    constructor
    · exact Or.inr
    · rintro (rfl | h)
      · exact hq
      · exact h
  · exact List.mem_cons

theorem nodup_setAdd {acc : List ℕ} {q : ℕ} (h : acc.Nodup) :
    (setAdd acc q).Nodup := by
  unfold setAdd
  split
  · exact h
  · rename_i hq
    exact List.nodup_cons.mpr ⟨hq, h⟩

theorem mem_foldl_setAdd (l acc : List ℕ) (p : ℕ) :
    p ∈ l.foldl setAdd acc ↔ p ∈ acc ∨ p ∈ l := by
  induction l generalizing acc with
  | nil => simp
  | cons q l ih =>
    simp only [List.foldl_cons, ih, mem_setAdd, List.mem_cons]
    tauto

theorem nodup_foldl_setAdd (l : List ℕ) {acc : List ℕ} (h : acc.Nodup) :
    (l.foldl setAdd acc).Nodup := by
  induction l generalizing acc with
  | nil => exact h
  | cons q l ih => exact ih (nodup_setAdd h)

theorem mem_rangeList {lo hi : ℤ} (h : 0 ≤ lo) (p : ℕ) :
    p ∈ rangeList lo hi ↔ lo ≤ (p : ℤ) ∧ (p : ℤ) ≤ hi := by
  unfold rangeList
  rw [List.mem_range'_1]
  omega

theorem rangeList_bounds {lo hi : ℤ} {p : ℕ}
    (hp : p ∈ rangeList (max 1 lo) (min 65535 hi)) : 1 ≤ p ∧ p ≤ 65535 := by
  have h0 : (0 : ℤ) ≤ max 1 lo := le_trans zero_le_one (le_max_left _ _)
  have hmem := (mem_rangeList h0 p).mp hp
  constructor
  · exact_mod_cast le_trans (le_max_left _ _) hmem.1
  · exact_mod_cast le_trans hmem.2 (min_le_left _ _)

theorem addToken_ok_invariant {acc acc' : List ℕ} {tok : List Char}
    (h : addToken acc tok = .ok acc') (hn : acc.Nodup)
    (hb : ∀ p ∈ acc, 1 ≤ p ∧ p ≤ 65535) :
    acc'.Nodup ∧ ∀ p ∈ acc', 1 ≤ p ∧ p ≤ 65535 := by
  simp only [addToken] at h
  split at h
  · cases h
    exact ⟨hn, hb⟩
  · split at h
    · split at h
      · exact Except.noConfusion h
      · split at h
        · exact Except.noConfusion h
        · cases h
          refine ⟨nodup_foldl_setAdd _ hn, ?_⟩
          intro p hp
          rcases (mem_foldl_setAdd _ _ _).mp hp with hp | hp
          · exact hb p hp
          · exact rangeList_bounds hp
    · split at h
      · exact Except.noConfusion h
      · rename_i p hpint
        split at h
        · rename_i hrange
          cases h
          refine ⟨nodup_setAdd hn, ?_⟩
          intro q hq
          rcases mem_setAdd.mp hq with rfl | hq
          · omega
          · exact hb q hq
        · cases h
          exact ⟨hn, hb⟩

theorem foldlM_addToken_invariant {toks : List (List Char)} {acc res : List ℕ}
    (h : toks.foldlM addToken acc = .ok res) (hn : acc.Nodup)
    (hb : ∀ p ∈ acc, 1 ≤ p ∧ p ≤ 65535) :
    res.Nodup ∧ ∀ p ∈ res, 1 ≤ p ∧ p ≤ 65535 := by
  induction toks generalizing acc with
  | nil =>
    rw [List.foldlM_nil] at h
    cases h
    exact ⟨hn, hb⟩
  | cons t toks ih =>
    rw [List.foldlM_cons] at h
    cases ha : addToken acc t with
    | error e =>
      rw [ha, exc_bind_error] at h
      exact Except.noConfusion h
    | ok acc1 =>
      rw [ha, exc_bind_ok] at h
      obtain ⟨hn1, hb1⟩ := addToken_ok_invariant ha hn hb
      exact ih h hn1 hb1

theorem parse_ports_ok_inv {s : String} {l : List ℕ}
    (h : parse_ports s = .ok l) :
    l.Sorted (· < ·) ∧ ∀ p ∈ l, 1 ≤ p ∧ p ≤ 65535 := by
  unfold parse_ports at h
  cases hf : (splitChar ',' s.toList).foldlM addToken [] with
  | error e =>
    rw [hf, exc_bind_error] at h
    exact Except.noConfusion h
  | ok acc =>
    rw [hf, exc_bind_ok] at h
    obtain ⟨hn, hb⟩ :=
      foldlM_addToken_invariant hf List.nodup_nil (by intro p hp; cases hp)
    cases h
    have hperm := List.perm_insertionSort (· ≤ ·) acc
    have hsorted := List.sorted_insertionSort (· ≤ ·) acc
    have hnodup : (List.insertionSort (· ≤ ·) acc).Nodup := hperm.symm.nodup hn
    refine ⟨hsorted.lt_of_le hnodup, ?_⟩
    intro p hp
    exact hb p (hperm.mem_iff.mp hp)

theorem addToken_error_spec {acc : List ℕ} {tok : List Char} {t : String}
    (h : addToken acc tok = .error t) :
    (∀ acc' : List ℕ, addToken acc' tok = .error t) ∧ pyInt t.toList = none := by
  simp only [addToken] at h ⊢
  by_cases h0 : pyStrip tok = []
  · rw [if_pos h0] at h
    exact Except.noConfusion h
  · rw [if_neg h0] at h
    by_cases h1 : '-' ∈ pyStrip tok
    · rw [if_pos h1] at h
      cases hb : pyInt (splitFirst '-' (pyStrip tok)).1 with
      | none =>
        rw [hb] at h
        have h' : (Except.error ⟨(splitFirst '-' (pyStrip tok)).1⟩ :
            Except String (List ℕ)) = .error t := h
        obtain rfl := (Except.error.inj h').symm
        refine ⟨fun acc' => ?_, hb⟩
        rw [if_neg h0, if_pos h1]
      | some b =>
        rw [hb] at h
        cases he : pyInt (splitFirst '-' (pyStrip tok)).2 with
        | none =>
          rw [he] at h
          have h' : (Except.error ⟨(splitFirst '-' (pyStrip tok)).2⟩ :
              Except String (List ℕ)) = .error t := h
          obtain rfl := (Except.error.inj h').symm
          refine ⟨fun acc' => ?_, he⟩
          rw [if_neg h0, if_pos h1]
        | some e =>
          rw [he] at h
          exact Except.noConfusion h
    · rw [if_neg h1] at h
      cases hp : pyInt (pyStrip tok) with
      | none =>
        rw [hp] at h
        have h' : (Except.error ⟨pyStrip tok⟩ :
            Except String (List ℕ)) = .error t := h
        obtain rfl := (Except.error.inj h').symm
        refine ⟨fun acc' => ?_, hp⟩
        rw [if_neg h0, if_neg h1]
      | some p =>
        rw [hp] at h
        have h' : (if 1 ≤ p ∧ p ≤ 65535 then Except.ok (setAdd acc p.toNat)
            else Except.ok acc) = Except.error t := h
        split at h' <;> exact Except.noConfusion h'

theorem foldlM_addToken_error {toks : List (List Char)} (acc : List ℕ)
    (h : ∃ tok ∈ toks, ∃ t, addToken [] tok = .error t) :
    ∃ t, toks.foldlM addToken acc = .error t ∧ pyInt t.toList = none := by
  induction toks generalizing acc with
  | nil =>
    rcases h with ⟨tok, htok, _⟩
    cases htok
  | cons t0 toks ih =>
    rw [List.foldlM_cons]
    cases ha : addToken acc t0 with
    | error terr =>
      rw [exc_bind_error]
      exact ⟨terr, rfl, (addToken_error_spec ha).2⟩
    | ok acc1 =>
      rw [exc_bind_ok]
      apply ih
      rcases h with ⟨tok, hmem, t, ht⟩
      rcases List.mem_cons.mp hmem with rfl | hmem
      · have := (addToken_error_spec ht).1 acc
        rw [ha] at this
        exact Except.noConfusion this
      · exact ⟨tok, hmem, t, ht⟩

theorem pyStrip_no_ws {s : List Char} (h : ∀ c ∈ s, c.isWhitespace = false) :
    pyStrip s = s := by
  have h1 : List.dropWhile Char.isWhitespace s = s := by
    rw [List.dropWhile_eq_self_iff]
    intro hl
    rw [h _ (List.get_mem _ _ _)]
    simp
  have h2 : List.dropWhile Char.isWhitespace s.reverse = s.reverse := by
    rw [List.dropWhile_eq_self_iff]
    intro hl
    rw [h _ (List.mem_reverse.mp (List.get_mem _ _ _))]
    simp
  unfold pyStrip
  rw [h1, h2, List.reverse_reverse]

theorem isDigit_not_ws {c : Char} (h : c.isDigit = true) :
    c.isWhitespace = false := by
  by_contra hws
  rw [Bool.not_eq_false] at hws
  simp only [Char.isWhitespace, Bool.or_eq_true, decide_eq_true_eq] at hws
  rcases hws with ((rfl | rfl) | rfl) | rfl <;> exact absurd h (by decide)

/-! ### Claims -/

/-- C1: For every ports specification string on which `parse_ports` succeeds,
the returned list is strictly ascending with no duplicate elements, and every
element lies in `[1, 65535]`; in particular
`parse_ports "80,22,80" = [22, 80]`. -/
theorem C1_parse_ports_sorted_bounded :
    (∀ (s : String) (l : List ℕ), parse_ports s = .ok l →
        l.Sorted (· < ·) ∧ ∀ p ∈ l, 1 ≤ p ∧ p ≤ 65535)
    ∧ parse_ports "80,22,80" = .ok [22, 80] :=
  ⟨fun _ _ h => parse_ports_ok_inv h, rfl⟩

theorem C1_parse_ports_sorted_bounded_witness :
    List.Sorted (· < ·) [22, 80] ∧ ∀ p ∈ [22, 80], 1 ≤ p ∧ p ≤ 65535 :=
  C1_parse_ports_sorted_bounded.1 "80,22,80" [22, 80]
    C1_parse_ports_sorted_bounded.2

/-- C2: `scan_port` always returns a boolean (it is a total function into
`Bool`): whenever the transport primitive raises a network-layer error
(timeout, refusal, unreachable host, resource exhaustion, or any other
`OSError`), the result is `false`; the result is `true` exactly when the
connect attempt returns error code `0`. -/
theorem C2_scan_port_absorbs_errors :
    (∀ (c : ConnectEx) (ip : String) (port : ℕ) (t : ℚ) (e : NetError),
        c ip port t = .error e → scan_port c ip port t = false)
    ∧ (∀ (c : ConnectEx) (ip : String) (port : ℕ) (t : ℚ),
        scan_port c ip port t = true ↔ c ip port t = .ok 0) := by
  constructor
  · intro c ip port t e h
    unfold scan_port
    rw [h]
  · intro c ip port t
    unfold scan_port
    cases h : c ip port t with
    | ok code => simp
    | error e => simp

theorem C2_scan_port_absorbs_errors_witness :
    scan_port (fun _ _ _ => .error .timedOut) "127.0.0.1" 80 1 = false :=
  C2_scan_port_absorbs_errors.1 (fun _ _ _ => .error .timedOut)
    "127.0.0.1" 80 1 .timedOut rfl

/-- C3: For every range token whose two endpoints parse as integers `b` and
`e`, `addToken` succeeds (inverted endpoints are swapped, not rejected) and
contributes exactly the part of `[min b e, max b e]` that lies within
`[1, 65535]` — nothing, without error, when the range lies entirely outside;
in particular `parse_ports "8000-7999" = [7999, 8000]`. -/
theorem C3_range_swapped_and_clamped :
    (∀ (acc : List ℕ) (tok : List Char) (b e : ℤ),
        pyStrip tok ≠ [] → '-' ∈ pyStrip tok →
        pyInt (splitFirst '-' (pyStrip tok)).1 = some b →
        pyInt (splitFirst '-' (pyStrip tok)).2 = some e →
        ∃ l, addToken acc tok = .ok l ∧
          ∀ p : ℕ, p ∈ l ↔ p ∈ acc ∨
            (1 ≤ p ∧ p ≤ 65535 ∧ min b e ≤ (p : ℤ) ∧ (p : ℤ) ≤ max b e))
    ∧ parse_ports "8000-7999" = .ok [7999, 8000] := by
  refine ⟨?_, rfl⟩
  intro acc tok b e hne hdash hb he
  refine ⟨(rangeList (max 1 (if b > e then e else b))
      (min 65535 (if b > e then b else e))).foldl setAdd acc, ?_, ?_⟩
  · simp only [addToken]
    rw [if_neg hne, if_pos hdash, hb, he]
  · intro p
    rw [mem_foldl_setAdd]
    refine or_congr Iff.rfl ?_
    rw [mem_rangeList (le_trans zero_le_one (le_max_left _ _)) p]
    split_ifs with hbe <;> omega

theorem C3_range_swapped_and_clamped_witness :
    ∃ l, addToken [] "8000-7999".toList = .ok l ∧
      ∀ p : ℕ, p ∈ l ↔ p ∈ ([] : List ℕ) ∨
        (1 ≤ p ∧ p ≤ 65535 ∧ min (8000 : ℤ) 7999 ≤ (p : ℤ) ∧
          (p : ℤ) ≤ max (8000 : ℤ) 7999) :=
  C3_range_swapped_and_clamped.1 [] "8000-7999".toList 8000 7999
    (by decide) (by decide) (by decide) (by decide)

/-- C4: A token on which integer parsing fails (a range endpoint or a
literal) makes the whole parse fail, with the error carrying the offending
string (on which `int` fails); in particular
`parse_ports "22,abc" = error "abc"`; and at the CLI level an invalid
specification, or one parsing to the empty set, yields exit code 2 with no
scan started and no summary printed. -/
theorem C4_invalid_token_fails_whole_parse :
    (∀ s : String,
        (∃ tok ∈ splitChar ',' s.toList, ∃ t, addToken [] tok = .error t) →
        ∃ t, parse_ports s = .error t ∧ pyInt t.toList = none)
    ∧ parse_ports "22,abc" = .error "abc"
    ∧ (∀ (env : Env) (args : Args),
        ((∃ t, parse_ports args.ports = .error t) ∨
            parse_ports args.ports = .ok []) →
        main env args = ⟨.exited 2, false, none⟩) := by
  refine ⟨?_, rfl, ?_⟩
  · intro s hs
    obtain ⟨t, ht, hpy⟩ := foldlM_addToken_error [] hs
    refine ⟨t, ?_, hpy⟩
    unfold parse_ports
    rw [ht, exc_bind_error]
  · intro env args h
    unfold main
    rcases h with ⟨t, ht⟩ | h
    · rw [ht]
    · rw [h]
      rfl

theorem C4_invalid_token_fails_whole_parse_witness :
    (∃ t, parse_ports "22,abc" = .error t ∧ pyInt t.toList = none)
    ∧ main ⟨fun _ => some "10.0.0.1", fun _ _ _ => .error .refused, none⟩
        ⟨"example.com", "22,abc", 100, 1⟩ = ⟨.exited 2, false, none⟩ :=
  ⟨C4_invalid_token_fails_whole_parse.1 "22,abc"
      ⟨['a', 'b', 'c'], by decide, "abc", rfl⟩,
    C4_invalid_token_fails_whole_parse.2.2 _ _ (Or.inl ⟨"abc", rfl⟩)⟩

/-- C5: Empty tokens (after stripping) are skipped, and a separator-free
token whose integer value is outside `[1, 65535]` is silently dropped rather
than failing the parse; in particular `parse_ports "0,70000,443" = [443]`
and `parse_ports "22,,80" = [22, 80]`. -/
theorem C5_empty_and_out_of_range_dropped :
    (∀ (acc : List ℕ) (tok : List Char),
        pyStrip tok = [] → addToken acc tok = .ok acc)
    ∧ (∀ (acc : List ℕ) (tok : List Char) (p : ℤ),
        '-' ∉ pyStrip tok → pyInt (pyStrip tok) = some p →
        ¬(1 ≤ p ∧ p ≤ 65535) → addToken acc tok = .ok acc)
    ∧ parse_ports "0,70000,443" = .ok [443]
    ∧ parse_ports "22,,80" = .ok [22, 80] := by
  refine ⟨?_, ?_, rfl, rfl⟩
  · intro acc tok h
    simp only [addToken]
    rw [if_pos h]
  · intro acc tok p hdash hp hrange
    simp only [addToken]
    by_cases h0 : pyStrip tok = []
    · rw [if_pos h0]
    · rw [if_neg h0, if_neg hdash, hp]
      exact if_neg hrange

theorem C5_empty_and_out_of_range_dropped_witness :
    addToken [] "  ".toList = .ok [] ∧ addToken [22] "70000".toList = .ok [22] :=
  ⟨C5_empty_and_out_of_range_dropped.1 [] "  ".toList (by decide),
    C5_empty_and_out_of_range_dropped.2.1 [22] "70000".toList 70000
      (by decide) (by decide) (by decide)⟩

/-- C6 counterexample: with a valid spec, a resolvable target and
`workers = 0`, `main` does not fail fast with a usage-error exit code —
the `ThreadPoolExecutor` constructor's `ValueError` escapes `main`
unhandled (`uncaught`), so no exit code at all is produced. -/
theorem C6_counterexample_no_validation :
    main ⟨fun _ => some "10.0.0.1", fun _ _ _ => .error .refused, none⟩
        ⟨"example.com", "80", 0, 1⟩ = ⟨.uncaught, false, none⟩
    ∧ (main ⟨fun _ => some "10.0.0.1", fun _ _ _ => .error .refused, none⟩
          ⟨"example.com", "80", 0, 1⟩).outcome ≠ .exited 2 :=
  ⟨rfl, fun h => MainOutcome.noConfusion h⟩

/-- C6 amended: `main` performs no validation of the worker count or the
timeout.  Whenever the spec parses to a nonempty port set and the target
resolves, a non-positive worker count reaches the executor constructor,
which raises an unhandled `ValueError` before any probe is dispatched: `main`
ends `uncaught` (no exit code, no scan started, no summary) instead of the
`InvalidConfig` usage error the spec prescribes. -/
theorem C6_nonpositive_workers_uncaught :
    ∀ (env : Env) (args : Args) (ports : List ℕ) (ip : String),
      parse_ports args.ports = .ok ports → ports ≠ [] →
      env.resolve args.target = some ip → args.workers ≤ 0 →
      main env args = ⟨.uncaught, false, none⟩ := by
  intro env args ports ip hp hne hres hw
  unfold main
  simp only [hp]
  rw [if_neg hne]
  simp only [hres]
  rw [if_pos hw]

theorem C6_nonpositive_workers_uncaught_witness :
    main ⟨fun _ => some "10.0.0.1", fun _ _ _ => .error .refused, none⟩
        ⟨"example.com", "80", 0, 1⟩ = ⟨.uncaught, false, none⟩ :=
  C6_nonpositive_workers_uncaught _ _ [80] "10.0.0.1" rfl (by decide) rfl
    (by decide)

/-- C7: When a `KeyboardInterrupt` lands while the scan loop is still
running (after `k` processed outcomes, `k` less than the number of ports),
`main` returns exit code 130, the in-flight open-port state is discarded and
no summary block is printed. -/
theorem C7_interrupt_exit_130_no_summary :
    ∀ (env : Env) (args : Args) (ports : List ℕ) (ip : String) (k : ℕ),
      parse_ports args.ports = .ok ports → ports ≠ [] →
      env.resolve args.target = some ip → ¬args.workers ≤ 0 →
      env.interruptAfter = some k → k < ports.length →
      main env args = ⟨.exited 130, true, none⟩ := by
  intro env args ports ip k hp hne hres hw hint hk
  unfold main
  simp only [hp]
  rw [if_neg hne]
  simp only [hres]
  rw [if_neg hw]
  simp only [hint]
  rw [if_pos hk]

theorem C7_interrupt_exit_130_no_summary_witness :
    main ⟨fun _ => some "10.0.0.1", fun _ _ _ => .error .refused, some 0⟩
        ⟨"example.com", "22,80", 100, 1⟩ = ⟨.exited 130, true, none⟩ :=
  C7_interrupt_exit_130_no_summary _ _ [22, 80] "10.0.0.1" 0 rfl (by decide)
    rfl (by decide) rfl (by decide)

/-- C8: `finalize` is order-insensitive — any two arrival orders of the same
outcomes finalize to the same ascending-sorted list — and every scan that
runs to completion (no interrupt before the loop ends) exits with code 0 and
prints a summary whose open-port list is sorted ascending, whether or not
any probe returned `true`. -/
theorem C8_summary_sorted_exit_zero :
    (∀ l l' : List ℕ, l.Perm l' →
        finalize l = finalize l' ∧ (finalize l).Sorted (· ≤ ·))
    ∧ (∀ (env : Env) (args : Args) (ports : List ℕ) (ip : String),
        parse_ports args.ports = .ok ports → ports ≠ [] →
        env.resolve args.target = some ip → ¬args.workers ≤ 0 →
        (∀ k, env.interruptAfter = some k → ports.length ≤ k) →
        (main env args).outcome = .exited 0
        ∧ ∃ l, (main env args).summary = some l ∧ l.Sorted (· ≤ ·)) := by
  constructor
  · intro l l' hperm
    constructor
    · refine List.eq_of_perm_of_sorted ?_
        (List.sorted_insertionSort _ l) (List.sorted_insertionSort _ l')
      exact ((List.perm_insertionSort _ l).trans hperm).trans
        (List.perm_insertionSort _ l').symm
    · exact List.sorted_insertionSort _ l
  · intro env args ports ip hp hne hres hw hint
    have hmain : main env args = runScan env args ip ports := by
      unfold main
      simp only [hp]
      rw [if_neg hne]
      simp only [hres]
      rw [if_neg hw]
      cases hi : env.interruptAfter with
      | none => rfl
      | some k => exact if_neg (not_lt.mpr (hint k hi))
    rw [hmain]
    exact ⟨rfl, _, rfl, List.sorted_insertionSort _ _⟩

theorem C8_summary_sorted_exit_zero_witness :
    (main ⟨fun _ => some "10.0.0.1", fun _ _ _ => .error .refused, none⟩
        ⟨"example.com", "22,80", 100, 1⟩).outcome = .exited 0
    ∧ ∃ l, (main ⟨fun _ => some "10.0.0.1", fun _ _ _ => .error .refused, none⟩
        ⟨"example.com", "22,80", 100, 1⟩).summary = some l
        ∧ l.Sorted (· ≤ ·) :=
  C8_summary_sorted_exit_zero.2 _ _ [22, 80] "10.0.0.1" rfl (by decide) rfl
    (by decide) (fun k h => Option.noConfusion h)

/-- C10: A token written `-` followed by digits (a negative literal such as
`"-5"`) is classified as a range whose first endpoint is the empty string;
`int("")` fails, so the whole parse fails with the error carrying `""` —
the token is not silently dropped as an out-of-range literal; in particular
`parse_ports "-5" = error ""`. -/
theorem C10_negative_literal_fails_parse :
    (∀ (acc : List ℕ) (ds : List Char), ds ≠ [] →
        (∀ c ∈ ds, c.isDigit = true) → addToken acc ('-' :: ds) = .error "")
    ∧ parse_ports "-5" = .error "" := by
  refine ⟨?_, rfl⟩
  intro acc ds hne hds
  have hstrip : pyStrip ('-' :: ds) = '-' :: ds := by
    apply pyStrip_no_ws
    intro c hc
    rcases List.mem_cons.mp hc with rfl | hc
    · rfl
    · exact isDigit_not_ws (hds c hc)
  have hsplit : splitFirst '-' ('-' :: ds) = ([], ds) := by
    simp [splitFirst]
  simp only [addToken, hstrip]
  rw [if_neg (List.cons_ne_nil '-' ds), if_pos (List.mem_cons_self '-' ds),
    hsplit]
  rfl

theorem C10_negative_literal_fails_parse_witness :
    addToken [] ('-' :: ['5']) = .error "" :=
  C10_negative_literal_fails_parse.1 [] ['5'] (by decide) (by decide)

end PortScanner
